import Mathlib

/-!
# Verification of the myTts playback engine and queue controller

Shallow embedding of the audio playback core of the repository:

* `src/player.py` — `TtsPlayer`: the playback engine state machine
  (load/play/pause/resume/stop, millisecond/sample offset conversions,
  the segment producer and the skip logic of the play worker);
* `src/tts/server.py` — `TtsQueueController`: the FIFO request queue
  and its polling dispatch worker;
* `src/state.py` — `ReaderState`: the persisted reading position.

Python integers are modelled as `ℕ`/`ℤ` (all quantities involved are
non-negative counts, and `int()` on a non-negative quotient truncates
exactly like natural-number division); audio samples are modelled as `ℚ`
(the clamping and scaling logic is exact arithmetic, independent of the
float32 representation); fallible code is modelled with `Except`.
-/

namespace MyTts

/-- Modelled from the spec: `src/constants.py` is not among the sources, only
its importers are.  The spec fixes only that playback runs "at a fixed sample
rate"; the repository pins the rate of its Kokoro pipeline to 24000 Hz
(`tts_hotkey.py` declares `SAMPLE_RATE = 24000` for the same audio path). -/
def SAMPLE_RATE : ℕ := 24000

/-- `TtsPlayer._ms_to_samples` (src/player.py:67-69):
`int(ms * SAMPLE_RATE / 1000)`, truncating division on non-negative input. -/
def msToSamples (ms : ℕ) : ℕ := ms * SAMPLE_RATE / 1000

/-- `TtsPlayer._samples_to_ms` (src/player.py:71-73):
`int(samples * 1000 / SAMPLE_RATE)`. -/
def samplesToMs (samples : ℕ) : ℕ := samples * 1000 / SAMPLE_RATE

/-- `TtsPlayer._to_float32` (src/player.py:60-65): `None` becomes one zero
sample, otherwise the samples are clamped with `np.clip(audio, -1.0, 1.0)`.
The source applies no volume factor. -/
def toFloat32 (audio : Option (List ℚ)) : List ℚ :=
  match audio with
  | none => [0]
  | some a => a.map (fun x => max (-1) (min 1 x))

/-- Modelled from the spec: the conversion the spec (§3, §9) and the
repository's own test `tests/test_player.py::test_to_float32_clips_and_converts`
describe — scale each sample by the configured volume factor, then clamp
(clamp after scale).  The scaling step is absent from `src/player.py`. -/
def toFloat32Spec (volume : ℚ) (audio : Option (List ℚ)) : List ℚ :=
  match audio with
  | none => [0]
  | some a => a.map (fun x => max (-1) (min 1 (volume * x)))

/-- The skip logic of one loop iteration of `TtsPlayer._play_worker`
(src/player.py:114-119): a segment wholly inside the skipped region is
dropped and the remaining skip shrinks; otherwise the front `skip` samples
are trimmed and the skip becomes 0.  Returns the new skip count and the
samples that reach `_play_segment`. -/
def skipStep (skip : ℕ) (seg : List ℚ) : ℕ × List ℚ :=
  if seg.length ≤ skip then (skip - seg.length, [])
  else (0, seg.drop skip)

/-- Number of samples of `seg` written to the output stream by
`_play_segment` after the skip logic ran with `skip` pending samples:
`_play_segment` writes the whole (trimmed) segment in blocks. -/
def segmentWriteCount (skip : ℕ) (seg : List ℚ) : ℕ :=
  ((skipStep skip seg).2).length

/-- The playback-engine state: the mutable fields of `TtsPlayer.__init__`
(src/player.py:12-27), with two history fields (`loadedTexts`,
`playedTexts`) recording the texts handed to `load_text` and started by
`play`, the observations the repository's own `FakePlayer` test double
records. -/
structure PlayerState where
  text : String
  isPlaying : Bool
  isPaused : Bool
  offsetMs : ℕ
  offsetSamples : ℕ
  stopEventSet : Bool
  resumeEventSet : Bool
  loadedTexts : List String
  playedTexts : List String
deriving DecidableEq, Repr

/-- The state after `TtsPlayer.__init__`: no text, idle, offset 0,
stop event clear, resume event set. -/
def initPlayer : PlayerState :=
  { text := ""
    isPlaying := false
    isPaused := false
    offsetMs := 0
    offsetSamples := 0
    stopEventSet := false
    resumeEventSet := true
    loadedTexts := []
    playedTexts := [] }

/-- `TtsPlayer.stop` (src/player.py:176-185): clears the playing and paused
flags, zeroes both offsets, empties the text, sets the stop event and the
resume event.  (`_notify_state` invokes the observer and mutates nothing.) -/
def PlayerState.stop (s : PlayerState) : PlayerState :=
  { s with
    isPlaying := false
    isPaused := false
    offsetMs := 0
    offsetSamples := 0
    text := ""
    stopEventSet := true
    resumeEventSet := true }

/-- `TtsPlayer.load_text` (src/player.py:33-37): unconditionally calls
`stop()`, stores the text (with no emptiness check), and zeroes the offset. -/
def PlayerState.loadText (s : PlayerState) (t : String) : PlayerState :=
  let s1 := s.stop
  { s1 with
    text := t
    offsetMs := 0
    offsetSamples := 0
    loadedTexts := s1.loadedTexts ++ [t] }

/-- `TtsPlayer.play` (src/player.py:75-86): a no-op when no text is loaded
or the engine is already playing; otherwise converts the preset
`offset_ms` to `offset_samples`, clears the stop event, sets the resume
event, and enters the `Playing` state (spawning `_play_worker`). -/
def PlayerState.play (s : PlayerState) : PlayerState :=
  if s.text = "" ∨ s.isPlaying then s
  else
    { s with
      offsetSamples := msToSamples s.offsetMs
      stopEventSet := false
      resumeEventSet := true
      isPlaying := true
      isPaused := false
      playedTexts := s.playedTexts ++ [s.text] }

/-- The `finally` block of `TtsPlayer._play_worker` (src/player.py:123-131)
when the worker thread exits: on natural completion (still playing, not
paused) both offsets are reset, and the playing flag is cleared. -/
def PlayerState.finishPlayback (s : PlayerState) : PlayerState :=
  let s1 := if s.isPlaying && !s.isPaused then
              { s with offsetMs := 0, offsetSamples := 0 }
            else s
  { s1 with isPlaying := false }

/-- Python `str.strip()` whitespace test, on the ASCII whitespace class
(space, tab, newline, carriage return, vertical tab, form feed); Python also
strips further Unicode space characters, which never occur in the claims. -/
def pyIsSpace (c : Char) : Bool :=
  c = ' ' || c = '\t' || c = '\n' || c = '\r' || c.toNat = 11 || c.toNat = 12

/-- Python `text.strip()`: remove leading and trailing whitespace. -/
def pyStrip (s : String) : String :=
  String.mk (((s.data.dropWhile pyIsSpace).reverse.dropWhile pyIsSpace).reverse)

/-- The queue-controller state: the pending FIFO deque of
`TtsQueueController.__init__` (src/tts/server.py:9-16) plus the player it
drives. -/
structure ControllerState where
  queue : List String
  player : PlayerState
deriving DecidableEq, Repr

/-- A fresh controller over a fresh player. -/
def initController : ControllerState := ⟨[], initPlayer⟩

/-- `TtsQueueController.speak` (src/tts/server.py:31-40): strips the text,
rejects a blank result with `False`, otherwise clears the pending queue,
loads the cleaned text into the player and starts it, returning `True`. -/
def speak (c : ControllerState) (text : String) : Bool × ControllerState :=
  let clean := pyStrip text
  if clean = "" then (false, c)
  else (true, { queue := [], player := (c.player.loadText clean).play })

/-- `TtsQueueController.add_to_queue` (src/tts/server.py:42-49): strips the
text, rejects a blank result with `False`, otherwise appends the cleaned
text to the back of the pending queue. -/
def addToQueue (c : ControllerState) (text : String) : Bool × ControllerState :=
  let clean := pyStrip text
  if clean = "" then (false, c)
  else (true, { c with queue := c.queue ++ [clean] })

/-- One iteration of `TtsQueueController._queue_worker`
(src/tts/server.py:18-29): when the queue is non-empty and the player is
neither playing nor paused, pop the front entry, load it and start it. -/
def queueWorkerStep (c : ControllerState) : ControllerState :=
  match c.queue with
  | [] => c
  | t :: rest =>
    if c.player.isPlaying || c.player.isPaused then c
    else { queue := rest, player := (c.player.loadText t).play }

/-- The events that can act on a controller: an external `speak` call, an
external `add_to_queue` call, one poll of the dispatch worker, and the
asynchronous exit of the player's play-worker thread. -/
inductive Step where
  | speakS (t : String)
  | enqueueS (t : String)
  | poll
  | complete
deriving DecidableEq, Repr

/-- Apply one event to the controller. -/
def runStep (c : ControllerState) : Step → ControllerState
  | .speakS t => (speak c t).2
  | .enqueueS t => (addToQueue c t).2
  | .poll => queueWorkerStep c
  | .complete => { c with player := c.player.finishPlayback }

/-- Apply a sequence of events to the controller. -/
def run (c : ControllerState) (steps : List Step) : ControllerState :=
  steps.foldl runStep c

/-- The preemption scenario of the spec: `speak("first")`, then — before the
current request completes — `enqueue("second")`, then `speak("third")`, with
arbitrarily many dispatch polls in between. -/
def scenarioC5 (n m : ℕ) : List Step :=
  [Step.speakS "first"] ++ List.replicate n Step.poll ++ [Step.enqueueS "second"]
    ++ List.replicate m Step.poll ++ [Step.speakS "third"]

/-- The controller after `speak("first")` on a fresh controller. -/
def stateAfterFirst : ControllerState :=
  ⟨[], ⟨"first", true, false, 0, 0, false, true, ["first"], ["first"]⟩⟩

/-- The controller after `speak("first")` then `enqueue("second")`. -/
def stateAfterSecond : ControllerState :=
  ⟨["second"], ⟨"first", true, false, 0, 0, false, true, ["first"], ["first"]⟩⟩

/-- The controller after the whole preemption scenario: only `"first"` and
`"third"` ever reached the player, and the queue is empty. -/
def stateAfterThird : ControllerState :=
  ⟨[], ⟨"third", true, false, 0, 0, false, true, ["first", "third"], ["first", "third"]⟩⟩

/-- The controller after `enqueue("a")` then `enqueue("b")` on a fresh
controller: both texts pending, the player untouched. -/
def fifoStart : ControllerState := ⟨["a", "b"], initPlayer⟩

/-- The controller after the dispatch worker promoted `"a"`. -/
def fifoAfterA : ControllerState :=
  ⟨["b"], ⟨"a", true, false, 0, 0, false, true, ["a"], ["a"]⟩⟩

/-- Dispatch invariant for the FIFO scenario: the texts handed to the player
are exactly the first `k` of `["a", "b"]`, the queue holds the rest, and
every loaded text was also started. -/
def fifoInv (c : ControllerState) : Prop :=
  ∃ k, k ≤ 2 ∧ c.player.loadedTexts = List.take k ["a", "b"] ∧
    c.queue = List.drop k ["a", "b"] ∧
    c.player.playedTexts = c.player.loadedTexts

/-! ## The segment producer (`TtsPlayer._produce_segments`)

The producer runs concurrently with the consuming play worker, so its
behaviour is modelled against a discrete timeline: at instant `t` the
environment says whether the stop event is set (`stopAt t`) and how many
items the consumer has removed from the bounded buffer so far (`takenBy t`).
The buffer occupancy at an instant is the producer's completed puts minus
the consumer's takes, and a put succeeds exactly when the occupancy is
below the buffer capacity (Python `queue.Queue(maxsize=cap)` semantics).
A synthesis error after `k` yielded segments reaches the same `finally`
block as normal exhaustion of the generator, so it is modelled by running
the producer on the first `k` segments. -/

/-- The environment of one producer run: the stop event and the consumer. -/
structure ProducerEnv where
  stopAt : ℕ → Bool
  takenBy : ℕ → ℕ

/-- The inner retry loop of `_produce_segments` (src/player.py:46-51):
`while not stop: try put(segment, timeout) / break; except Full: continue`.
Returns the instant after the loop, the new put count, and whether the
segment was actually placed; `none` when the supplied fuel runs out before
the loop exits (the loop blocks for ever in that schedule). -/
def putLoop (env : ProducerEnv) (cap : ℕ) : ℕ → ℕ → ℕ → Option (ℕ × ℕ × Bool)
  | 0, _, _ => none
  | fuel + 1, t, p =>
    if env.stopAt t then some (t, p, false)
    else if p - env.takenBy t < cap then some (t + 1, p + 1, true)
    else putLoop env cap fuel (t + 1) p

/-- The generator loop of `_produce_segments` (src/player.py:44-53): one
`putLoop` per yielded segment, then the `if self.stop_event.is_set(): break`
check.  Returns the instant and put count at which control reaches the
`finally` block. -/
def produceLoop (env : ProducerEnv) (cap fuel : ℕ) :
    List (List ℚ) → ℕ → ℕ → Option (ℕ × ℕ)
  | [], t, p => some (t, p)
  | _ :: rest, t, p =>
    match putLoop env cap fuel t p with
    | none => none
    | some (t', p', ok) =>
      if env.stopAt t' then some (t', p')
      else if ok then produceLoop env cap fuel rest t' p'
      else some (t', p')

/-- Outcome of a terminating producer run. -/
structure ProduceResult where
  time : ℕ
  puts : ℕ
  markerPlaced : Bool
deriving DecidableEq, Repr

/-- `TtsPlayer._produce_segments` (src/player.py:43-58): the generator loop
followed by the `finally` block, which signals end-of-stream with
`out_queue.put_nowait(None)` and swallows `queue.Full` — so the marker is in
the buffer exactly when the occupancy at that instant is below capacity. -/
def produceSegments (env : ProducerEnv) (cap fuel : ℕ)
    (segs : List (List ℚ)) : Option ProduceResult :=
  match produceLoop env cap fuel segs 0 0 with
  | none => none
  | some (t, p) => some ⟨t, p, decide (p - env.takenBy t < cap)⟩

/-- An idle environment: the stop event never fires and the consumer never
takes anything. -/
def envFree : ProducerEnv := ⟨fun _ => false, fun _ => 0⟩

/-- The environment of the C2 counterexample run: no stop request, and the
consumer removes exactly one segment (at instant 2) while the producer is
filling the buffer. -/
def envC2 : ProducerEnv := ⟨fun _ => false, fun t => if 2 ≤ t then 1 else 0⟩

/-! ## The persisted reading position (`ReaderState`, src/state.py)

`ReaderState.load` is modelled with explicit Python-exception propagation:
the `try` block performs `json.load` and the three field assignments in
order, and the `except (OSError, ValueError, json.JSONDecodeError)` clause
turns those exceptions — and only those — into a normal return that keeps
whatever assignments had already happened. -/

/-- The JSON values relevant to the state file's fields. -/
inductive JVal where
  | jnull
  | jbool (b : Bool)
  | jint (n : ℤ)
  | jstr (s : String)
deriving DecidableEq, Repr

/-- The parsed top-level JSON document: an object (modelled as a key-value
list), or anything else — on which `data.get(...)` raises
`AttributeError`. -/
inductive JTop where
  | jdict (entries : List (String × JVal))
  | jother
deriving DecidableEq, Repr

/-- The condition of the state file when `load()` runs. -/
inductive FileCond where
  | missing
  | unreadable
  | invalidJson
  | valid (top : JTop)
deriving DecidableEq, Repr

/-- The Python exceptions `load()` can encounter. -/
inductive PyExc where
  | osError
  | jsonDecodeError
  | valueError
  | typeError
  | attributeError
deriving DecidableEq, Repr

/-- Decidable equality on `Except`, so concrete runs of `load()` can be
checked by evaluation. -/
instance {ε α : Type} [DecidableEq ε] [DecidableEq α] :
    DecidableEq (Except ε α) := fun a b =>
  match a, b with
  | .ok x, .ok y =>
    if h : x = y then isTrue (by rw [h]) else isFalse (fun hh => h (Except.ok.inj hh))
  | .error x, .error y =>
    if h : x = y then isTrue (by rw [h]) else isFalse (fun hh => h (Except.error.inj hh))
  | .ok _, .error _ => isFalse (fun hh => Except.noConfusion hh)
  | .error _, .ok _ => isFalse (fun hh => Except.noConfusion hh)

/-- Python `dict.get(key, default)` on the modelled JSON object. -/
def dictGet (entries : List (String × JVal)) (key : String) (dflt : JVal) : JVal :=
  match entries.find? (fun e => e.1 = key) with
  | some e => e.2
  | none => dflt

/-- Digit-list accumulator for the integer parser. -/
def parseDigits : List Char → ℕ → Option ℕ
  | [], acc => some acc
  | c :: cs, acc =>
    if '0' ≤ c ∧ c ≤ '9' then parseDigits cs (acc * 10 + (c.toNat - 48))
    else none

/-- Python `int(string)`: an optional sign followed by at least one digit
(Python additionally tolerates surrounding whitespace and underscores,
which the claims do not exercise); anything else raises `ValueError`. -/
def pyIntOfString (s : String) : Option ℤ :=
  match s.data with
  | [] => none
  | '-' :: [] => none
  | '-' :: cs => (parseDigits cs 0).map (fun n => -(n : ℤ))
  | cs => (parseDigits cs 0).map (fun n => (n : ℤ))

/-- Python `int(x)` on a JSON-derived value: integers pass through, booleans
coerce, a string is parsed (`ValueError` when it is not an integer literal),
`None` raises `TypeError`. -/
def pyInt (v : JVal) : Except PyExc ℤ :=
  match v with
  | .jint n => .ok n
  | .jbool b => .ok (if b then 1 else 0)
  | .jstr s =>
    match pyIntOfString s with
    | some n => .ok n
    | none => .error .valueError
  | .jnull => .error .typeError

/-- The in-memory fields of `ReaderState.__init__` (src/state.py:8-11).
`book_path` is assigned straight from `data.get(...)` with no conversion, so
it can hold any JSON value; it starts as the empty string. -/
structure ReaderState where
  book_path : JVal
  chapter_index : ℤ
  offset_ms : ℤ
deriving DecidableEq, Repr

/-- `ReaderState.load` (src/state.py:13-23): a missing file returns at once;
`OSError`, `ValueError` and `json.JSONDecodeError` from the body are
suppressed, keeping whichever assignments had already run; any other
exception (a `TypeError` from `int(None)`, an `AttributeError` from `.get`
on a non-object document) propagates. -/
def ReaderState.load (s : ReaderState) (file : FileCond) : Except PyExc ReaderState :=
  match file with
  | .missing => .ok s
  | .unreadable => .ok s
  | .invalidJson => .ok s
  | .valid .jother => .error .attributeError
  | .valid (.jdict d) =>
    let s1 : ReaderState := { s with book_path := dictGet d "book_path" (.jstr "") }
    match pyInt (dictGet d "chapter_index" (.jint 0)) with
    | .error .valueError => .ok s1
    | .error e => .error e
    | .ok ci =>
      let s2 : ReaderState := { s1 with chapter_index := ci }
      match pyInt (dictGet d "offset_ms" (.jint 0)) with
      | .error .valueError => .ok s2
      | .error e => .error e
      | .ok om => .ok { s2 with offset_ms := om }

end MyTts

namespace MyTts

/-! ## Helper lemmas about the controller model -/

theorem run_cons (c : ControllerState) (k : Step) (ks : List Step) :
    run c (k :: ks) = run (runStep c k) ks := rfl

theorem run_append (c : ControllerState) (l1 l2 : List Step) :
    run c (l1 ++ l2) = run (run c l1) l2 := by
  simp [run, List.foldl_append]

theorem poll_queue_empty {c : ControllerState} (h : c.queue = []) :
    queueWorkerStep c = c := by
  unfold queueWorkerStep
  rw [h]

theorem poll_while_playing {c : ControllerState} (h : c.player.isPlaying = true) :
    queueWorkerStep c = c := by
  unfold queueWorkerStep
  cases hq : c.queue with
  | nil => rfl
  | cons t rest => simp [h]

theorem run_polls_queue_empty (n : ℕ) (c : ControllerState) (h : c.queue = []) :
    run c (List.replicate n Step.poll) = c := by
  induction n with
  | zero => rfl
  | succ k ih =>
    rw [List.replicate_succ, run_cons]
    have hs : runStep c Step.poll = c := poll_queue_empty h
    rw [hs, ih]

theorem run_polls_while_playing (n : ℕ) (c : ControllerState)
    (h : c.player.isPlaying = true) :
    run c (List.replicate n Step.poll) = c := by
  induction n with
  | zero => rfl
  | succ k ih =>
    rw [List.replicate_succ, run_cons]
    have hs : runStep c Step.poll = c := poll_while_playing h
    rw [hs, ih]

theorem finishPlayback_ghosts (p : PlayerState) :
    (p.finishPlayback).loadedTexts = p.loadedTexts ∧
    (p.finishPlayback).playedTexts = p.playedTexts := by
  unfold PlayerState.finishPlayback
  by_cases hcond : (p.isPlaying && !p.isPaused) = true <;> simp [hcond]

theorem run_inert (ks : List Step)
    (hks : ∀ s ∈ ks, s = Step.poll ∨ s = Step.complete) :
    ∀ c : ControllerState, c.queue = [] →
      (run c ks).queue = [] ∧
      (run c ks).player.loadedTexts = c.player.loadedTexts ∧
      (run c ks).player.playedTexts = c.player.playedTexts := by
  induction ks with
  | nil => exact fun c h => ⟨h, rfl, rfl⟩
  | cons k ks' ih =>
    intro c h
    have hks' : ∀ s ∈ ks', s = Step.poll ∨ s = Step.complete :=
      fun s hs => hks s (by simp [hs])
    rw [run_cons]
    rcases hks k (by simp) with hp | hc
    · subst hp
      have hs : runStep c Step.poll = c := poll_queue_empty h
      rw [hs]
      exact ih hks' c h
    · subst hc
      have h2 : (runStep c Step.complete).queue = [] := h
      obtain ⟨hq, hl, hp2⟩ := ih hks' (runStep c Step.complete) h2
      have hg := finishPlayback_ghosts c.player
      exact ⟨hq, by rw [hl]; exact hg.1, by rw [hp2]; exact hg.2⟩

theorem loadText_play_eval (s : PlayerState) (t : String) (ht : ¬ t = "") :
    (s.loadText t).play =
      { text := t, isPlaying := true, isPaused := false, offsetMs := 0,
        offsetSamples := 0, stopEventSet := false, resumeEventSet := true,
        loadedTexts := s.loadedTexts ++ [t],
        playedTexts := s.playedTexts ++ [t] } := by
  simp [PlayerState.loadText, PlayerState.stop, PlayerState.play, ht, msToSamples]

theorem fifoInv_poll {c : ControllerState} (h : fifoInv c) :
    fifoInv (queueWorkerStep c) := by
  obtain ⟨k, hk, hload, hq, hplay⟩ := h
  by_cases hp : (c.player.isPlaying || c.player.isPaused) = true
  · have hid : queueWorkerStep c = c := by
      unfold queueWorkerStep
      cases hqq : c.queue with
      | nil => rfl
      | cons a rest => simp [hp]
    rw [hid]
    exact ⟨k, hk, hload, hq, hplay⟩
  · interval_cases k
    · have hqq : c.queue = ["a", "b"] := hq
      have hl0 : c.player.loadedTexts = [] := hload
      have hstep : queueWorkerStep c = ⟨["b"], (c.player.loadText "a").play⟩ := by
        unfold queueWorkerStep
        rw [hqq]
        simp [hp]
      rw [hstep, loadText_play_eval c.player "a" (by decide)]
      exact ⟨1, by norm_num, by simp [hl0], rfl, by simp [hplay]⟩
    · have hqq : c.queue = ["b"] := hq
      have hl1 : c.player.loadedTexts = ["a"] := hload
      have hstep : queueWorkerStep c = ⟨[], (c.player.loadText "b").play⟩ := by
        unfold queueWorkerStep
        rw [hqq]
        simp [hp]
      rw [hstep, loadText_play_eval c.player "b" (by decide)]
      exact ⟨2, le_refl 2, by simp [hl1], rfl, by simp [hplay]⟩
    · have hqq : c.queue = [] := hq
      rw [poll_queue_empty hqq]
      exact ⟨2, le_refl 2, hload, hq, hplay⟩

theorem fifoInv_complete {c : ControllerState} (h : fifoInv c) :
    fifoInv (runStep c Step.complete) := by
  obtain ⟨k, hk, hload, hq, hplay⟩ := h
  have hg := finishPlayback_ghosts c.player
  refine ⟨k, hk, ?_, hq, ?_⟩
  · show c.player.finishPlayback.loadedTexts = _
    rw [hg.1]
    exact hload
  · show c.player.finishPlayback.playedTexts = c.player.finishPlayback.loadedTexts
    rw [hg.1, hg.2]
    exact hplay

theorem fifoInv_run (ks : List Step)
    (hks : ∀ s ∈ ks, s = Step.poll ∨ s = Step.complete) :
    ∀ c : ControllerState, fifoInv c → fifoInv (run c ks) := by
  induction ks with
  | nil => exact fun c h => h
  | cons k ks' ih =>
    intro c h
    have hks' : ∀ s ∈ ks', s = Step.poll ∨ s = Step.complete :=
      fun s hs => hks s (List.mem_cons_of_mem k hs)
    rw [run_cons]
    rcases hks k (List.mem_cons_self k ks') with hp | hc
    · subst hp
      exact ih hks' _ (fifoInv_poll h)
    · subst hc
      exact ih hks' _ (fifoInv_complete h)

theorem polls_only_run (ks : List Step) (hks : ∀ s ∈ ks, s = Step.poll) :
    ∀ c : ControllerState, (c = fifoStart ∨ c = fifoAfterA) →
      (run c ks = fifoStart ∨ run c ks = fifoAfterA) := by
  induction ks with
  | nil => exact fun c h => h
  | cons k ks' ih =>
    intro c h
    have hk := hks k (List.mem_cons_self k ks')
    subst hk
    have hks' : ∀ s ∈ ks', s = Step.poll :=
      fun s hs => hks s (List.mem_cons_of_mem Step.poll hs)
    rw [run_cons]
    rcases h with h | h <;> subst h
    · exact ih hks' _ (Or.inr (by decide))
    · exact ih hks' _ (Or.inr (by decide))

/-! ## Claim theorems: offset conversions and sample-accurate seek -/

/-- C8: round-trip near-idempotence of the offset unit conversions — for
every sample count `n`, `ms_to_samples(samples_to_ms(n))` is at most `n` and
exceeds `n - SAMPLE_RATE/1000`, i.e. the round trip loses strictly less than
one sample-rate-derived rounding unit under the truncation both functions
use. -/
theorem C8_roundtrip_near_idempotent (n : ℕ) :
    msToSamples (samplesToMs n) ≤ n ∧
    n < msToSamples (samplesToMs n) + SAMPLE_RATE / 1000 := by
  unfold msToSamples samplesToMs SAMPLE_RATE
  omega

/-- C1 counterexample: with segments of 5000 samples and `offset_ms` preset
to `samples_to_ms(2000)` before `play()`, the number of samples of that
segment written to the sink is not 3000: the truncating millisecond
round-trip turns the 2000-sample overlap into a skip of only 1992 samples. -/
theorem C1_counterexample :
    ¬ segmentWriteCount
        ((({ initPlayer with
              text := "t", offsetMs := samplesToMs 2000 } : PlayerState).play).offsetSamples)
        (List.replicate 5000 (0 : ℚ)) = 3000 := by
  have hskip : (({ initPlayer with
      text := "t", offsetMs := samplesToMs 2000 } : PlayerState).play).offsetSamples = 1992 := by
    decide
  rw [hskip]
  unfold segmentWriteCount skipStep
  rw [List.length_replicate, if_neg (by norm_num), List.length_drop, List.length_replicate]
  norm_num

/-- C1 amended: in the same scenario the engine writes exactly
`5000 - ms_to_samples(samples_to_ms(2000)) = 5000 - 1992 = 3008` samples of
the 5000-sample segment — the skip trims `ms_to_samples(samples_to_ms(2000))`
samples, which at the repository's 24000 Hz rate is 1992, not 2000. -/
theorem C1_skip_trims_roundtrip :
    (({ initPlayer with
        text := "t", offsetMs := samplesToMs 2000 } : PlayerState).play).offsetSamples
      = msToSamples (samplesToMs 2000) ∧
    msToSamples (samplesToMs 2000) = 1992 ∧
    segmentWriteCount (msToSamples (samplesToMs 2000)) (List.replicate 5000 (0 : ℚ)) = 3008 := by
  refine ⟨by decide, by decide, ?_⟩
  have h : msToSamples (samplesToMs 2000) = 1992 := by decide
  rw [h]
  unfold segmentWriteCount skipStep
  rw [List.length_replicate, if_neg (by norm_num), List.length_drop, List.length_replicate]

/-! ## Claim theorems: sample conversion, engine state machine -/

/-- C3 (code bug): `_to_float32` in `src/player.py` converts to float32 and
clamps to `[-1, 1]`, but applies no volume factor at all, contradicting the
spec's clamp-after-scale contract and the repository's own test
`test_to_float32_clips_and_converts`, which expects
`clip(audio * VOLUME, -1.0, 1.0)`: on the test's own input `[2, -2, 0.5]`
the source returns `[1, -1, 0.5]`, while the scale-then-clamp conversion
returns a different value for every volume factor other than 1 (shown here
at volume 1/2). -/
theorem C3_volume_scaling_missing :
    toFloat32 (some [2, -2, 1/2]) = [1, -1, 1/2] ∧
    toFloat32Spec (1/2) (some [2, -2, 1/2]) = [1, -1, 1/4] ∧
    ¬ toFloat32Spec (1/2) (some [2, -2, 1/2]) = toFloat32 (some [2, -2, 1/2]) := by
  refine ⟨?_, ?_, ?_⟩ <;> norm_num [toFloat32, toFloat32Spec]

/-- C4: from every engine state, `stop()` leaves the engine idle — playing
and paused flags cleared, both offsets 0, loaded text empty — and a second
`stop()` from the resulting state changes nothing (idempotence). -/
theorem C4_stop_resets_and_idempotent (s : PlayerState) :
    (s.stop).isPlaying = false ∧ (s.stop).isPaused = false ∧
    (s.stop).offsetSamples = 0 ∧ (s.stop).offsetMs = 0 ∧
    (s.stop).text = "" ∧ (s.stop).stop = s.stop :=
  ⟨rfl, rfl, rfl, rfl, rfl, rfl⟩

/-- C5: in the scenario `speak("first")`; `enqueue("second")` before the
current request completes; `speak("third")` — with any number of dispatch
polls in between and any continuation of polls and play-worker completions
afterwards — the second `speak` clears the queue, so the player only ever
receives `"first"` and `"third"`: `"second"` is never loaded and never
played, and the pending queue is empty after the scenario. -/
theorem C5_speak_preempts_queue (n m : ℕ) (ks : List Step)
    (hks : ∀ s ∈ ks, s = Step.poll ∨ s = Step.complete) :
    (run initController (scenarioC5 n m ++ ks)).player.loadedTexts = ["first", "third"] ∧
    "second" ∉ (run initController (scenarioC5 n m ++ ks)).player.loadedTexts ∧
    "second" ∉ (run initController (scenarioC5 n m ++ ks)).player.playedTexts ∧
    (run initController (scenarioC5 n m)).queue = [] := by
  have h0 : run initController [Step.speakS "first"] = stateAfterFirst := by decide
  have h1 : run stateAfterFirst [Step.enqueueS "second"] = stateAfterSecond := by decide
  have h2 : run stateAfterSecond [Step.speakS "third"] = stateAfterThird := by decide
  have hrun : run initController (scenarioC5 n m) = stateAfterThird := by
    unfold scenarioC5
    rw [run_append, run_append, run_append, run_append, h0,
      run_polls_queue_empty n stateAfterFirst rfl, h1,
      run_polls_while_playing m stateAfterSecond rfl, h2]
  have hfull : run initController (scenarioC5 n m ++ ks) = run stateAfterThird ks := by
    rw [run_append, hrun]
  obtain ⟨hq, hl, hp⟩ := run_inert ks hks stateAfterThird rfl
  rw [hfull, hl, hp]
  refine ⟨rfl, by decide, by decide, by rw [hrun]; rfl⟩

/-- Closed instance of the preemption scenario: no polls, no continuation. -/
theorem C5_witness :
    (run initController (scenarioC5 0 0 ++ [])).player.loadedTexts = ["first", "third"] :=
  (C5_speak_preempts_queue 0 0 [] (by simp)).1

/-- C6 counterexample: `TtsPlayer.load_text` does not reject empty input —
called with `""` on an engine that is playing `"hello"` at offset 5, it
mutates the state (the loaded text, the flags and the offsets all change),
refuting the claim that `load` leaves the engine exactly as it was. -/
theorem C6_counterexample :
    ¬ (PlayerState.loadText
        ⟨"hello", true, false, 5, 5, false, true, [], []⟩ "") =
      ⟨"hello", true, false, 5, 5, false, true, [], []⟩ := by decide

/-- C6 amended: `speak` and `add_to_queue` do reject empty or
whitespace-only text synchronously, returning `False` and mutating neither
the queue nor the player; `load_text`, however, performs no emptiness check:
it unconditionally stops playback, stores the (possibly empty) text and
zeroes the offset, so calling it with blank text mutates state and reports
no failure. -/
theorem C6_blank_input (c : ControllerState) (t : String) (h : pyStrip t = "") :
    speak c t = (false, c) ∧ addToQueue c t = (false, c) ∧
    (∀ s : PlayerState, (s.loadText t).text = t ∧
      (s.loadText t).isPlaying = false ∧ (s.loadText t).isPaused = false ∧
      (s.loadText t).offsetMs = 0 ∧ (s.loadText t).offsetSamples = 0) := by
  refine ⟨by simp [speak, h], by simp [addToQueue, h],
    fun s => ⟨rfl, rfl, rfl, rfl, rfl⟩⟩

/-- Closed instance: a whitespace-only `speak` and `enqueue` are rejected
with no state change. -/
theorem C6_witness :
    speak initController " " = (false, initController) ∧
    addToQueue initController " " = (false, initController) :=
  ⟨(C6_blank_input initController " " (by decide)).1,
   (C6_blank_input initController " " (by decide)).2.1⟩

/-- C7: FIFO dispatch — after `enqueue("a")` then `enqueue("b")` on an idle
engine, under any interleaving of dispatch polls and play-worker
completions the texts handed to the player form a prefix of `["a", "b"]`
(so `"a"` strictly before `"b"`, each started at most once, and each loaded
text started); with polls alone (no completion of `"a"`) `"b"` is never
promoted; and the concrete poll–complete–poll schedule plays `"a"` then
`"b"` in exactly that order. -/
theorem C7_fifo_dispatch (ks : List Step)
    (hks : ∀ s ∈ ks, s = Step.poll ∨ s = Step.complete) :
    (∃ k, k ≤ 2 ∧
      (run fifoStart ks).player.loadedTexts = List.take k ["a", "b"] ∧
      (run fifoStart ks).queue = List.drop k ["a", "b"] ∧
      (run fifoStart ks).player.playedTexts = (run fifoStart ks).player.loadedTexts) ∧
    ((∀ s ∈ ks, s = Step.poll) → "b" ∉ (run fifoStart ks).player.loadedTexts) ∧
    run initController [Step.enqueueS "a", Step.enqueueS "b"] = fifoStart ∧
    (run fifoStart [Step.poll, Step.complete, Step.poll]).player.playedTexts = ["a", "b"] := by
  refine ⟨?_, ?_, by decide, by decide⟩
  · exact fifoInv_run ks hks fifoStart ⟨0, by norm_num, rfl, rfl, rfl⟩
  · intro hpolls
    rcases polls_only_run ks hpolls fifoStart (Or.inl rfl) with h | h <;>
      rw [h] <;> decide

/-- Closed instance of the FIFO scenario: the poll–complete–poll schedule. -/
theorem C7_witness :
    (run fifoStart [Step.poll, Step.complete, Step.poll]).player.playedTexts = ["a", "b"] :=
  (C7_fifo_dispatch [Step.poll, Step.complete, Step.poll] (by simp)).2.2.2

/-- C10: the Queue Controller normalizes text by stripping surrounding
whitespace — whenever the stripped text is non-empty, `speak` loads and
starts exactly the stripped text, and `add_to_queue` appends exactly the
stripped text to the queue, so surrounding whitespace never reaches the
player through the controller. -/
theorem C10_controller_strips (c : ControllerState) (t : String)
    (h : ¬ pyStrip t = "") :
    (speak c t).1 = true ∧
    ((speak c t).2).player.text = pyStrip t ∧
    ((speak c t).2).player.loadedTexts = c.player.loadedTexts ++ [pyStrip t] ∧
    ((speak c t).2).player.playedTexts = c.player.playedTexts ++ [pyStrip t] ∧
    (addToQueue c t).1 = true ∧
    ((addToQueue c t).2).queue = c.queue ++ [pyStrip t] := by
  have he := loadText_play_eval c.player (pyStrip t) h
  refine ⟨?_, ?_, ?_, ?_, ?_, ?_⟩ <;> simp [speak, addToQueue, h, he]

/-- Closed instance: `speak("  hi ")` loads `"hi"`. -/
theorem C10_witness :
    (speak initController "  hi ").2.player.text = pyStrip "  hi " ∧
    pyStrip "  hi " = "hi" :=
  ⟨(C10_controller_strips initController "  hi " (by decide)).2.1, by decide⟩

/-! ## Claim theorems: the segment producer's end-of-stream marker -/

theorem putLoop_puts_le (env : ProducerEnv) (cap : ℕ) :
    ∀ fuel t p t' p' ok, putLoop env cap fuel t p = some (t', p', ok) → p' ≤ p + 1 := by
  intro fuel
  induction fuel with
  | zero =>
    intro t p t' p' ok h
    simp [putLoop] at h
  | succ f ih =>
    intro t p t' p' ok h
    unfold putLoop at h
    split at h
    · simp only [Option.some.injEq, Prod.mk.injEq] at h
      obtain ⟨-, h2, -⟩ := h
      omega
    · split at h
      · simp only [Option.some.injEq, Prod.mk.injEq] at h
        obtain ⟨-, h2, -⟩ := h
        omega
      · exact ih _ _ _ _ _ h

theorem produceLoop_puts_le (env : ProducerEnv) (cap fuel : ℕ) :
    ∀ segs t p t' p', produceLoop env cap fuel segs t p = some (t', p') →
      p' ≤ p + segs.length := by
  intro segs
  induction segs with
  | nil =>
    intro t p t' p' h
    simp only [produceLoop, Option.some.injEq, Prod.mk.injEq] at h
    omega
  | cons s rest ih =>
    intro t p t' p' h
    have hlen : (s :: rest).length = rest.length + 1 := List.length_cons s rest
    unfold produceLoop at h
    split at h
    · exact absurd h (by simp)
    · rename_i t1 p1 ok heq
      have hb := putLoop_puts_le env cap fuel t p t1 p1 ok heq
      split at h
      · simp only [Option.some.injEq, Prod.mk.injEq] at h
        obtain ⟨-, h2⟩ := h
        omega
      · split at h
        · have := ih t1 p1 t' p' h
          omega
        · simp only [Option.some.injEq, Prod.mk.injEq] at h
          obtain ⟨-, h2⟩ := h
          omega

/-- Claim C2 counterexample: a terminating producer run in which no
end-of-stream marker reaches the buffer.  Five segments are synthesized
into the capacity-4 buffer while the consumer removes only one of them;
every blocking put succeeds, the generator is then exhausted, and when the
`finally` block runs the buffer holds 5 - 1 = 4 segments — full — so
`put_nowait(None)` raises `queue.Full`, which the producer swallows: the
run ends with `markerPlaced = false`, refuting the claim that a marker is
placed regardless of how full the buffer is. -/
theorem C2_counterexample :
    produceSegments envC2 4 10 (List.replicate 5 [(0 : ℚ)])
      = some ⟨5, 5, false⟩ ∧
    (ProduceResult.mk 5 5 false).markerPlaced = false :=
  ⟨by decide, rfl⟩

/-- Claim C2 amended: on every terminating run of the producer — normal
exhaustion, synthesis error (same `finally`, modelled by truncating the
segment list), or cancellation — the producer attempts the end-of-stream
marker with a non-blocking put; the marker is in the buffer if and only if
the buffer is not full at that instant, and in particular it is always
placed when the buffer can hold more segments than the run produced
(e.g. whenever fewer than `cap` segments exist). -/
theorem C2_end_marker_attempted (env : ProducerEnv) (cap fuel : ℕ)
    (segs : List (List ℚ)) (r : ProduceResult)
    (h : produceSegments env cap fuel segs = some r) :
    (r.markerPlaced = true ↔ r.puts - env.takenBy r.time < cap) ∧
    (segs.length < cap → r.markerPlaced = true) := by
  unfold produceSegments at h
  cases hpl : produceLoop env cap fuel segs 0 0 with
  | none => rw [hpl] at h; exact absurd h (by simp)
  | some tp =>
    obtain ⟨t, p⟩ := tp
    rw [hpl] at h
    simp only [Option.some.injEq] at h
    subst h
    refine ⟨by simp, fun hlen => ?_⟩
    have hple := produceLoop_puts_le env cap fuel segs 0 0 t p hpl
    have hroom : p - env.takenBy t < cap := by omega
    exact decide_eq_true hroom

/-- Closed instance: two segments into a capacity-4 buffer with an idle
consumer — the marker is placed. -/
theorem C2_witness :
    ((ProduceResult.mk 2 2 true).markerPlaced = true ↔
      2 - envFree.takenBy 2 < 4) ∧
    (([[(0 : ℚ)], [0]] : List (List ℚ)).length < 4 →
      (ProduceResult.mk 2 2 true).markerPlaced = true) :=
  C2_end_marker_attempted envFree 4 10 [[0], [0]] ⟨2, 2, true⟩ (by decide)

/-! ## Claim theorems: the persisted reading position -/

/-- Claim C9 counterexample: a state file whose `book_path` is a valid
string but whose `chapter_index` is the non-numeric string `"oops"` makes
`load()` return normally (the `int()` conversion's `ValueError` is caught)
with a partial mixture of values: `book_path` now comes from the file while
`chapter_index` and `offset_ms` keep their prior values — refuting the
claim that the fields always keep their prior values as a whole. -/
theorem C9_counterexample :
    ReaderState.load ⟨.jstr "old.epub", 7, 1234⟩
        (.valid (.jdict [("book_path", .jstr "new.epub"),
                         ("chapter_index", .jstr "oops")]))
      = .ok ⟨.jstr "new.epub", 7, 1234⟩ ∧
    ¬ (ReaderState.mk (.jstr "new.epub") 7 1234)
      = ⟨.jstr "old.epub", 7, 1234⟩ :=
  ⟨by decide, by decide⟩

/-- Claim C9 amended: `load()` returns normally with every prior value kept
for a missing file, an unreadable file, and an invalid-JSON file; when the
file parses to an object, a `ValueError` from a field's `int()` conversion
is also suppressed, but the assignments that had already run keep the
file's values (a partial mixture of old and file-derived values); a `null`
numeric field (`TypeError` from `int(None)`) and a non-object document
(`AttributeError` from `.get`) make `load()` raise. -/
theorem C9_load_behaviour :
    (∀ s : ReaderState, s.load .missing = .ok s) ∧
    (∀ s : ReaderState, s.load .unreadable = .ok s) ∧
    (∀ s : ReaderState, s.load .invalidJson = .ok s) ∧
    (∀ (s : ReaderState) (bp : JVal),
      s.load (.valid (.jdict [("book_path", bp), ("chapter_index", .jstr "oops")]))
        = .ok { s with book_path := bp }) ∧
    (∀ s : ReaderState, s.load (.valid .jother) = .error .attributeError) ∧
    (∀ s : ReaderState,
      s.load (.valid (.jdict [("chapter_index", .jnull)])) = .error .typeError) :=
  ⟨fun _ => rfl, fun _ => rfl, fun _ => rfl, fun _ _ => rfl, fun _ => rfl, fun _ => rfl⟩

end MyTts
